import Mathlib

/-!
# Verification of the habitat container-export pipeline

Shallow embedding of `components/pkg-export-container/src/lib.rs`: the
`RegistryType` parsing and display, `Credentials::new`, the `export`
pipeline and `export_for_cli_matches`. Fallible I/O steps (package
resolution, rootfs assembly, the container engine, the ECR token
exchange, report writing, push and removal) are abstracted as explicit
world inputs that record each step's outcome; the embedded functions
return a result together with a trace of the operations they invoked,
mirroring the early-return (`?`) control flow of the source.

Modules `build`, `docker`, `engine` and `error` of the crate are not
part of the provided sources; the few behaviors of theirs that claims
need (all-or-nothing reference resolution, the tag-list computation)
are modelled from the specification and marked as such in their doc
comments. Everything else is translated directly from `lib.rs`.
-/

/-- Error type of the crate. The variants `invalidRegistryType`,
`tokenFetchFailed` and `noECRTokensReturned` appear literally in
`lib.rs`; the remaining variants stand for the error values produced by
the crate modules not included in the sources (`error.rs` is absent), so
they are modelled abstractly: one variant per failing operation. -/
inductive ExpError : Type
  /-- `Error::InvalidRegistryType(String)` from `lib.rs`. -/
  | invalidRegistryType (value : String)
  /-- `Error::TokenFetchFailed` wrapping a rusoto error. -/
  | tokenFetchFailed
  /-- `Error::NoECRTokensReturned`. -/
  | noECRTokensReturned
  /-- failure of `HttpClient::new()` in `Credentials::new`. -/
  | httpClientError
  /-- resolution failure naming the offending component reference. -/
  | resolutionError (reference : String)
  /-- workspace population failure inside `build_spec.create`. -/
  | buildRootError
  /-- failure of `DockerBuildRoot::from_build_root`. -/
  | dockerFileError
  /-- failure of `build_root.export` (the engine build). -/
  | engineBuildError
  /-- failure of `build_root.destroy`. -/
  | cleanupError
  /-- failure of `BuildSpec::new_from_cli_matches`. -/
  | specError
  /-- failure of `env::current_dir()`. -/
  | currentDirError
  /-- failure of `docker_image.create_report`. -/
  | reportError
  /-- failure of `docker_image.push`. -/
  | pushError
  /-- failure of `docker_image.rm`. -/
  | rmError
deriving DecidableEq, Repr

/-- The `RegistryType` enum of `lib.rs`: `Amazon`, `Azure`, `Docker`. -/
inductive RegistryType : Type
  | amazon
  | azure
  | docker
deriving DecidableEq, Repr

/-- `RegistryType::variants()` from `lib.rs`. -/
def RegistryType.variants : List String := ["amazon", "azure", "docker"]

/-- `impl FromStr for RegistryType` from `lib.rs`: the three literal
strings parse to the three variants, anything else is
`Error::InvalidRegistryType` carrying the input string. -/
def RegistryType.from_str (value : String) : Except ExpError RegistryType :=
  if value = "amazon" then .ok .amazon
  else if value = "azure" then .ok .azure
  else if value = "docker" then .ok .docker
  else .error (.invalidRegistryType value)

/-- `impl fmt::Display for RegistryType` from `lib.rs`. -/
def RegistryType.display : RegistryType → String
  | .amazon => "amazon"
  | .azure => "azure"
  | .docker => "docker"

/-- The standard base64 alphabet used by `base64::encode`. -/
def base64Chars : List Char :=
  "ABCDEFGHIJKLMNOPQRSTUVWXYZabcdefghijklmnopqrstuvwxyz0123456789+/".data

/-- Character of the base64 alphabet at a 6-bit index. -/
def base64Char (n : Nat) : Char := base64Chars.getD n 'A'

/-- Encode a final chunk of at most three bytes, with `=` padding, as in
RFC 4648 (the encoding implemented by the `base64` crate). -/
def base64Group : List Nat → List Char
  | [b0, b1, b2] =>
    [base64Char (b0 / 4), base64Char (b0 % 4 * 16 + b1 / 16),
     base64Char (b1 % 16 * 4 + b2 / 64), base64Char (b2 % 64)]
  | [b0, b1] =>
    [base64Char (b0 / 4), base64Char (b0 % 4 * 16 + b1 / 16),
     base64Char (b1 % 16 * 4), '=']
  | [b0] =>
    [base64Char (b0 / 4), base64Char (b0 % 4 * 16), '=', '=']
  | _ => []

/-- Encode a byte list in groups of three. -/
def base64EncodeList : List Nat → List Char
  | b0 :: b1 :: b2 :: rest => base64Group [b0, b1, b2] ++ base64EncodeList rest
  | rest => base64Group rest

/-- `base64::encode` applied to the UTF-8 bytes of a string. -/
def base64Encode (s : String) : String :=
  String.mk (base64EncodeList (s.toUTF8.data.toList.map (fun b => b.toNat)))

/-- Outcome of a call that can succeed, fail with an error, or panic
(Rust `panic!` by an `expect` or an out-of-bounds index). -/
inductive Outcome (α : Type) : Type
  | ok (value : α)
  | err (e : ExpError)
  | panicked
deriving DecidableEq, Repr

/-- The observable behavior of the AWS ECR token-exchange environment in
`Credentials::new`: creation of the HTTP client can fail, the
`get_authorization_token` request can fail, or it returns a response
whose `authorization_data` is an optional list of entries, each entry
carrying an optional `authorization_token` string. -/
inductive EcrWorld : Type
  /-- `HttpClient::new()` returns an error. -/
  | httpClientFail
  /-- `client.get_authorization_token(..)` returns an error. -/
  | requestFail
  /-- a response with the given `authorization_data` field. -/
  | response (authorization_data : Option (List (Option String)))
deriving DecidableEq, Repr

/-- The `Credentials` struct of `lib.rs`: a resolved token. -/
structure Credentials : Type where
  token : String
deriving DecidableEq, Repr

/-- `Credentials::new` from `lib.rs`. For `Amazon` it performs the ECR
token exchange: a failing HTTP-client construction or request is an
error; a response with `authorization_data == None` is
`NoECRTokensReturned`; otherwise the source indexes `auth_data[0]`
(which panics when the list is present but empty) and a missing
`authorization_token` in that first entry is again
`NoECRTokensReturned`. For `Docker` and `Azure` it returns
`base64::encode(format!("{}:{}", username, password))` without touching
the network. -/
def Credentials.new (registry_type : RegistryType) (username password : String)
    (ecr : EcrWorld) : Outcome Credentials :=
  match registry_type with
  | .amazon =>
    match ecr with
    | .httpClientFail => .err .httpClientError
    | .requestFail => .err .tokenFetchFailed
    | .response none => .err .noECRTokensReturned
    | .response (some []) => .panicked
    | .response (some (entry :: _)) =>
      match entry with
      | none => .err .noECRTokensReturned
      | some t => .ok { token := t }
  | .docker | .azure =>
    .ok { token := base64Encode (username ++ ":" ++ password) }

/-- The `Naming` struct of `lib.rs`: an image naming policy. The `&str`
options of the source become `Option String`. -/
structure Naming : Type where
  custom_image_name : Option String
  latest_tag : Bool
  version_tag : Bool
  version_release_tag : Bool
  custom_tag : Option String
  registry_url : Option String
  registry_type : RegistryType
deriving DecidableEq, Repr

/-- A built container image: its computed name and the tags applied to
it (`ContainerImage` lives in the absent `docker` module; only the
identity data the pipeline claims mention is modelled). -/
structure ContainerImage : Type where
  name : String
  tags : List String
deriving DecidableEq, Repr

/-- Modelled from the spec: the raw tag candidates of the tag-list
computation of `BuildRoot.buildImage` (module `docker`, not under
`src/`), in the spec's declared precedence order: custom tag first if
present, then version+release, then version, then latest. -/
def rawTags (n : Naming) (version release : String) : List String :=
  (match n.custom_tag with | some t => [t] | none => []) ++
  (if n.version_release_tag then [version ++ "-" ++ release] else []) ++
  (if n.version_tag then [version] else []) ++
  (if n.latest_tag then ["latest"] else [])

/-- Order-preserving de-duplication keeping the first occurrence,
carrying the set of already-emitted tags. -/
def dedupKeepFirstAux (seen : List String) : List String → List String
  | [] => []
  | x :: xs =>
    if x ∈ seen then dedupKeepFirstAux seen xs
    else x :: dedupKeepFirstAux (x :: seen) xs

/-- Order-preserving de-duplication keeping the first occurrence. -/
def dedupKeepFirst (l : List String) : List String := dedupKeepFirstAux [] l

/-- Modelled from the spec: the tag list of `BuildRoot.buildImage`
(module `docker`, not under `src/`): the raw candidates in precedence
order, de-duplicated order-preservingly, falling back to the default
tag `latest` when every policy flag is disabled and no custom tag is
given. -/
def Naming.tagList (n : Naming) (version release : String) : List String :=
  let d := dedupKeepFirst (rawTags n version release)
  if d.isEmpty then ["latest"] else d

/-- Modelled from the spec: all-or-nothing resolution of the component
references of a `BuildSpec` (module `build`, not under `src/`). Given
which references the environment can resolve, resolution succeeds only
when every reference resolves, and otherwise fails with a
`ResolutionError` naming the first offending reference. -/
def resolveRefs (resolvable : String → Bool) : List String → Except ExpError (List String)
  | [] => .ok []
  | r :: rs =>
    if resolvable r then
      match resolveRefs resolvable rs with
      | .ok rest => .ok (r :: rest)
      | .error e => .error e
    else .error (.resolutionError r)

/-- The operations the pipeline can invoke, recorded in order in a
trace: component resolution, creation of the build-root workspace,
writing of the Docker support files, the engine image build, workspace
destruction, report creation, credential resolution, image push and
local image removal. -/
inductive Event : Type
  | resolve
  | createBuildRoot
  | dockerFiles
  | buildImage
  | destroy
  | report
  | resolveCredentials
  | pushOp
  | rmImage
deriving DecidableEq, Repr

deriving instance DecidableEq for Except

/-- Outcomes of the fallible steps of one `export` call. `build_spec.create`
performs resolution and then workspace assembly (its two phases are
split here, following the spec, since module `build` is not under
`src/`); `DockerBuildRoot::from_build_root` writes the Docker support
files; `build_root.export` runs the engine build; `build_root.destroy`
removes the workspace. -/
structure ExportWorld : Type where
  resolveResult : Except ExpError Unit
  assembleResult : Except ExpError Unit
  dockerFilesResult : Except ExpError Unit
  buildExportResult : Except ExpError ContainerImage
  destroyResult : Except ExpError Unit
deriving DecidableEq, Repr

/-- The `export` function of `lib.rs`:

```rust
let build_root = DockerBuildRoot::from_build_root(build_spec.create(ui).await?, ui)?;
let image = build_root.export(ui, naming, memory, engine)?;
build_root.destroy(ui)?;
Ok(image)
```

Each `?` returns early with the step's error; the trace records which
operations were invoked. `build_root.destroy` is reached only after a
successful `build_root.export`, and a destroy failure is propagated by
`?` as the result of `export`. -/
def exportPipeline (w : ExportWorld) : Except ExpError ContainerImage × List Event :=
  match w.resolveResult with
  | .error e => (.error e, [.resolve])
  | .ok _ =>
    match w.assembleResult with
    | .error e => (.error e, [.resolve, .createBuildRoot])
    | .ok _ =>
      match w.dockerFilesResult with
      | .error e => (.error e, [.resolve, .createBuildRoot, .dockerFiles])
      | .ok _ =>
        match w.buildExportResult with
        | .error e => (.error e, [.resolve, .createBuildRoot, .dockerFiles, .buildImage])
        | .ok image =>
          match w.destroyResult with
          | .error e =>
            (.error e, [.resolve, .createBuildRoot, .dockerFiles, .buildImage, .destroy])
          | .ok _ =>
            (.ok image, [.resolve, .createBuildRoot, .dockerFiles, .buildImage, .destroy])

/-- Inputs and step outcomes of one `export_for_cli_matches` call:
outcome of `BuildSpec::new_from_cli_matches`, the world of the inner
`export` call, outcomes of `env::current_dir()` and
`docker_image.create_report`, presence of the `PUSH_IMAGE` and
`RM_IMAGE` flags, the naming policy, the optional `REGISTRY_USERNAME`
and `REGISTRY_PASSWORD` values, the ECR environment, and outcomes of
`docker_image.push` and `docker_image.rm`. -/
structure CliWorld : Type where
  specResult : Except ExpError Unit
  exportWorld : ExportWorld
  currentDirResult : Except ExpError Unit
  reportResult : Except ExpError Unit
  push_image : Bool
  rm_image : Bool
  naming : Naming
  registry_username : Option String
  registry_password : Option String
  ecr : EcrWorld
  pushResult : Except ExpError Unit
  rmResult : Except ExpError Unit
deriving DecidableEq, Repr

/-- The `PUSH_IMAGE` block of `export_for_cli_matches`: when the flag is
present, `matches.value_of("REGISTRY_USERNAME").expect(..)` and the
password lookup panic when absent, then `Credentials::new` is awaited
(`?` propagates its error) and `docker_image.push` runs (`?` propagates
its error). Returns `some` of an early exit, or `none` to continue,
together with the trace of the block. -/
def pushPhase (w : CliWorld) : Option (Outcome (Option ContainerImage)) × List Event :=
  if w.push_image then
    match w.registry_username with
    | none => (some .panicked, [])
    | some username =>
      match w.registry_password with
      | none => (some .panicked, [])
      | some password =>
        match Credentials.new w.naming.registry_type username password w.ecr with
        | .panicked => (some .panicked, [.resolveCredentials])
        | .err e => (some (.err e), [.resolveCredentials])
        | .ok _credentials =>
          match w.pushResult with
          | .error e => (some (.err e), [.resolveCredentials, .pushOp])
          | .ok _ => (none, [.resolveCredentials, .pushOp])
  else (none, [])

/-- The `RM_IMAGE` block of `export_for_cli_matches`: when the flag is
present, `docker_image.rm(ui)?` runs and on success the function
returns `Ok(None)`; otherwise it returns `Ok(Some(docker_image))`. -/
def rmPhase (w : CliWorld) (image : ContainerImage) : Outcome (Option ContainerImage) × List Event :=
  if w.rm_image then
    match w.rmResult with
    | .error e => (.err e, [.rmImage])
    | .ok _ => (.ok none, [.rmImage])
  else (.ok (some image), [])

/-- The `export_for_cli_matches` function of `lib.rs`: build the spec
(`?`), run `export` (`?`), write the report into
`env::current_dir()?.join("results")` (`?` twice), then the
`PUSH_IMAGE` block and the `RM_IMAGE` block. -/
def export_for_cli_matches (w : CliWorld) : Outcome (Option ContainerImage) × List Event :=
  match w.specResult with
  | .error e => (.err e, [])
  | .ok _ =>
    match exportPipeline w.exportWorld with
    | (.error e, tr) => (.err e, tr)
    | (.ok image, tr) =>
      match w.currentDirResult with
      | .error e => (.err e, tr)
      | .ok _ =>
        match w.reportResult with
        | .error e => (.err e, tr ++ [.report])
        | .ok _ =>
          match pushPhase w with
          | (some earlyExit, s) => (earlyExit, tr ++ .report :: s)
          | (none, s) =>
            match rmPhase w image with
            | (out, s2) => (out, tr ++ .report :: (s ++ s2))

/-- Does an `Except` value hold a success? -/
def Except.succeeded {ε α : Type} : Except ε α → Bool
  | .ok _ => true
  | .error _ => false

/-- The trace of one `export` call contains the destroy event exactly
once when resolution, assembly, docker-file creation and the engine
build all succeed, and never otherwise. -/
theorem exportPipeline_destroy_count (w : ExportWorld) :
    (exportPipeline w).2.count Event.destroy =
      if w.resolveResult.succeeded && w.assembleResult.succeeded
         && w.dockerFilesResult.succeeded && w.buildExportResult.succeeded
      then 1 else 0 := by
  obtain ⟨r, a, d, b, de⟩ := w
  cases r <;> cases a <;> cases d <;> cases b <;> cases de <;> rfl

/-- The trace of one `export` call never contains a credential, report,
push or removal event. -/
theorem exportPipeline_events (w : ExportWorld) :
    Event.resolveCredentials ∉ (exportPipeline w).2 ∧
    Event.report ∉ (exportPipeline w).2 ∧
    Event.pushOp ∉ (exportPipeline w).2 ∧
    Event.rmImage ∉ (exportPipeline w).2 := by
  obtain ⟨r, a, d, b, de⟩ := w
  cases r <;> cases a <;> cases d <;> cases b <;> cases de <;>
    simp [exportPipeline]

/-- The trace of the `PUSH_IMAGE` block is one of `[]`,
`[resolveCredentials]`, `[resolveCredentials, pushOp]`. -/
theorem pushPhase_trace (w : CliWorld) :
    (pushPhase w).2 = [] ∨ (pushPhase w).2 = [Event.resolveCredentials] ∨
      (pushPhase w).2 = [Event.resolveCredentials, Event.pushOp] := by
  unfold pushPhase
  cases hpi : w.push_image
  · simp
  · cases hu : w.registry_username with
    | none => simp
    | some username =>
      cases hp : w.registry_password with
      | none => simp
      | some password =>
        cases hc : Credentials.new w.naming.registry_type username password w.ecr with
        | ok c => cases hpr : w.pushResult <;> simp [hc, hpr]
        | err e => simp [hc]
        | panicked => simp [hc]

/-- With no `PUSH_IMAGE` flag, the push block does nothing. -/
theorem pushPhase_no_push (w : CliWorld) (h : w.push_image = false) :
    pushPhase w = (none, []) := by
  simp [pushPhase, h]

/-- The trace of the `RM_IMAGE` block is `[]` or `[rmImage]`. -/
theorem rmPhase_trace (w : CliWorld) (image : ContainerImage) :
    (rmPhase w image).2 = [] ∨ (rmPhase w image).2 = [Event.rmImage] := by
  unfold rmPhase
  cases hri : w.rm_image
  · simp
  · cases hr : w.rmResult <;> simp

/-- Neither the push block nor the removal block ever records a destroy
event. -/
theorem pushPhase_rmPhase_no_destroy (w : CliWorld) (image : ContainerImage) :
    Event.destroy ∉ (pushPhase w).2 ∧ Event.destroy ∉ (rmPhase w image).2 := by
  constructor
  · rcases pushPhase_trace w with h | h | h <;> rw [h] <;> decide
  · rcases rmPhase_trace w image with h | h <;> rw [h] <;> decide

/-- C9: for every `RegistryType` value `t`, parsing the string produced
by displaying `t` yields `Ok(t)`, and every string outside
`{"amazon", "azure", "docker"}` parses to an `InvalidRegistryType`
error carrying that string. -/
theorem registry_type_roundtrip :
    (∀ t : RegistryType, RegistryType.from_str t.display = .ok t) ∧
    (∀ s : String, s ∉ RegistryType.variants →
      RegistryType.from_str s = .error (.invalidRegistryType s)) := by
  constructor
  · intro t; cases t <;> rfl
  · intro s hs
    simp only [RegistryType.variants, List.mem_cons, List.not_mem_nil, or_false,
      not_or] at hs
    simp [RegistryType.from_str, hs.1, hs.2.1, hs.2.2]

/-- C9 witness: the round trip at `docker` and the failure at the
concrete non-variant string `"google"`. -/
theorem registry_type_roundtrip_witness :
    RegistryType.from_str (RegistryType.display .docker) = .ok .docker ∧
    RegistryType.from_str "google" = .error (.invalidRegistryType "google") :=
  ⟨registry_type_roundtrip.1 .docker,
   registry_type_roundtrip.2 "google" (by decide)⟩

/-- C5: for the two generic registry kinds (`Docker` and `Azure`),
`Credentials::new` succeeds for every username, password and network
environment - so no network call can influence it - and the token is the
base64 encoding of `username ++ ":" ++ password`. -/
theorem generic_credentials (username password : String) (ecr : EcrWorld) :
    Credentials.new .docker username password ecr =
      .ok { token := base64Encode (username ++ ":" ++ password) } ∧
    Credentials.new .azure username password ecr =
      .ok { token := base64Encode (username ++ ":" ++ password) } :=
  ⟨rfl, rfl⟩

/-- C4: at the failing input - the `Amazon` registry kind and an ECR
response whose `authorization_data` is present but an empty list -
`Credentials::new` panics (the source indexes `auth_data[0]`) instead of
returning a credential error; every other failure mode does return an
error without retry. -/
theorem amazon_empty_auth_data_panics :
    Credentials.new .amazon "AKIDEXAMPLE" "wJalrXUtnFEMI" (.response (some [])) =
      .panicked ∧
    Credentials.new .amazon "AKIDEXAMPLE" "wJalrXUtnFEMI" .requestFail =
      .err .tokenFetchFailed ∧
    Credentials.new .amazon "AKIDEXAMPLE" "wJalrXUtnFEMI" (.response none) =
      .err .noECRTokensReturned ∧
    Credentials.new .amazon "AKIDEXAMPLE" "wJalrXUtnFEMI" (.response (some [none])) =
      .err .noECRTokensReturned :=
  ⟨rfl, rfl, rfl, rfl⟩

/-- The push block leaves the destroy count untouched. -/
theorem pushPhase_destroy_count (w : CliWorld) :
    (pushPhase w).2.count Event.destroy = 0 := by
  rcases pushPhase_trace w with h | h | h <;> rw [h] <;> rfl

/-- The removal block leaves the destroy count untouched. -/
theorem rmPhase_destroy_count (w : CliWorld) (image : ContainerImage) :
    (rmPhase w image).2.count Event.destroy = 0 := by
  rcases rmPhase_trace w image with h | h <;> rw [h] <;> rfl

/-- C2 counterexample: in a run where every stage of `export` succeeds
except the final `build_root.destroy`, `export` returns the destruction
error instead of reporting success. -/
theorem destroy_failure_fails_export_cex :
    (exportPipeline
      { resolveResult := .ok (), assembleResult := .ok (), dockerFilesResult := .ok (),
        buildExportResult := .ok { name := "acme/web", tags := ["latest", "1.2.0"] },
        destroyResult := .error .cleanupError }).1 = .error .cleanupError := rfl

/-- C2 amended: when the image build succeeded but `build_root.destroy`
fails, `export` propagates the destruction error as its own result (the
`?` on `build_root.destroy(ui)` escalates it); the destruction failure
is not a secondary, non-fatal outcome. -/
theorem destroy_failure_escalates (w : ExportWorld) (image : ContainerImage) (e : ExpError)
    (h1 : w.resolveResult = .ok ()) (h2 : w.assembleResult = .ok ())
    (h3 : w.dockerFilesResult = .ok ()) (h4 : w.buildExportResult = .ok image)
    (h5 : w.destroyResult = .error e) :
    (exportPipeline w).1 = .error e := by
  simp [exportPipeline, h1, h2, h3, h4, h5]

/-- C2 witness: the amended theorem applied at a concrete run. -/
theorem destroy_failure_escalates_witness :
    (exportPipeline
      { resolveResult := .ok (), assembleResult := .ok (), dockerFilesResult := .ok (),
        buildExportResult := .ok { name := "w", tags := ["latest"] },
        destroyResult := .error .cleanupError }).1 = .error .cleanupError :=
  destroy_failure_escalates _ { name := "w", tags := ["latest"] } .cleanupError
    rfl rfl rfl rfl rfl

/-- C1 counterexample: on an engine-build failure the early `?` return of
`export` skips `build_root.destroy` entirely - the cleanup call count of
that fatal-error exit path is 0, not 1. -/
theorem cleanup_skipped_on_build_failure_cex :
    (exportPipeline
      { resolveResult := .ok (), assembleResult := .ok (), dockerFilesResult := .ok (),
        buildExportResult := .error .engineBuildError, destroyResult := .ok () }).1 =
        .error .engineBuildError ∧
    (exportPipeline
      { resolveResult := .ok (), assembleResult := .ok (), dockerFilesResult := .ok (),
        buildExportResult := .error .engineBuildError, destroyResult := .ok () }).2.count
        Event.destroy = 0 := ⟨rfl, rfl⟩

/-- C1 amended: over a whole `export_for_cli_matches` run,
`build_root.destroy` is invoked exactly once precisely when spec
creation, resolution, assembly, docker-file creation and the engine
build all succeed (in particular also when destroy itself, the report,
credential resolution, a push or a removal later fails), and zero times
otherwise: a resolution, assembly, docker-file or engine-build failure
returns early and skips the cleanup call. -/
theorem cleanup_count (w : CliWorld) :
    (export_for_cli_matches w).2.count Event.destroy =
      if w.specResult.succeeded && w.exportWorld.resolveResult.succeeded
          && w.exportWorld.assembleResult.succeeded
          && w.exportWorld.dockerFilesResult.succeeded
          && w.exportWorld.buildExportResult.succeeded
      then 1 else 0 := by
  have hx := exportPipeline_destroy_count w.exportWorld
  cases hspec : w.specResult with
  | error e => simp [export_for_cli_matches, hspec, Except.succeeded]
  | ok u =>
    rcases hE : exportPipeline w.exportWorld with ⟨res, tr⟩
    rw [hE] at hx
    simp only at hx
    cases res with
    | error e =>
      simp [export_for_cli_matches, hspec, hE, Except.succeeded, hx]
    | ok image =>
      cases hcd : w.currentDirResult with
      | error e2 => simp [export_for_cli_matches, hspec, hE, hcd, Except.succeeded, hx]
      | ok u2 =>
        cases hrep : w.reportResult with
        | error e3 =>
          have h1 : ([Event.report] : List Event).count Event.destroy = 0 := rfl
          simp [export_for_cli_matches, hspec, hE, hcd, hrep, Except.succeeded,
            List.count_append, h1, hx]
        | ok u3 =>
          rcases hpp : pushPhase w with ⟨oe, s⟩
          have hs : s.count Event.destroy = 0 := by
            have h2 := pushPhase_destroy_count w
            rw [hpp] at h2
            exact h2
          have h1 : ∀ l : List Event, (Event.report :: l).count Event.destroy = l.count Event.destroy := by
            intro l
            rw [List.count_cons]
            rfl
          cases oe with
          | some out =>
            simp [export_for_cli_matches, hspec, hE, hcd, hrep, hpp, Except.succeeded,
              List.count_append, h1, hs, hx]
          | none =>
            rcases hrm : rmPhase w image with ⟨out2, s2⟩
            have hs2 : s2.count Event.destroy = 0 := by
              have h3 := rmPhase_destroy_count w image
              rw [hrm] at h3
              exact h3
            simp [export_for_cli_matches, hspec, hE, hcd, hrep, hpp, hrm, Except.succeeded,
              List.count_append, h1, hs, hs2, hx]

/-- C3 counterexample: in a run where `export` fully succeeds but
`create_report` fails, `export_for_cli_matches` returns the report
error instead of the successfully built image. -/
theorem report_failure_fails_cli_cex :
    (export_for_cli_matches
      { specResult := .ok (),
        exportWorld :=
          { resolveResult := .ok (), assembleResult := .ok (), dockerFilesResult := .ok (),
            buildExportResult := .ok { name := "acme/web", tags := ["latest", "1.2.0"] },
            destroyResult := .ok () },
        currentDirResult := .ok (), reportResult := .error .reportError,
        push_image := false, rm_image := false,
        naming := { custom_image_name := none, latest_tag := true, version_tag := true,
                    version_release_tag := false, custom_tag := none, registry_url := none,
                    registry_type := .docker },
        registry_username := none, registry_password := none, ecr := .requestFail,
        pushResult := .ok (), rmResult := .ok () }).1 = .err .reportError := rfl

/-- C3 amended: after a successful image build, a failure of
`create_report` makes `export_for_cli_matches` return that error (the
`?` on `create_report` propagates it); the successful build result is
not returned and the failure is not downgraded to a warning. -/
theorem report_failure_escalates (w : CliWorld) (image : ContainerImage) (e : ExpError)
    (h1 : w.specResult = .ok ())
    (h2 : (exportPipeline w.exportWorld).1 = .ok image)
    (h3 : w.currentDirResult = .ok ())
    (h4 : w.reportResult = .error e) :
    (export_for_cli_matches w).1 = .err e := by
  rcases hE : exportPipeline w.exportWorld with ⟨res, tr⟩
  rw [hE] at h2
  simp only at h2
  subst h2
  simp [export_for_cli_matches, h1, hE, h3, h4]

/-- C3 witness: the amended theorem applied at a concrete run. -/
theorem report_failure_escalates_witness :
    (export_for_cli_matches
      { specResult := .ok (),
        exportWorld :=
          { resolveResult := .ok (), assembleResult := .ok (), dockerFilesResult := .ok (),
            buildExportResult := .ok { name := "w", tags := ["latest"] },
            destroyResult := .ok () },
        currentDirResult := .ok (), reportResult := .error .reportError,
        push_image := false, rm_image := false,
        naming := { custom_image_name := none, latest_tag := true, version_tag := false,
                    version_release_tag := false, custom_tag := none, registry_url := none,
                    registry_type := .docker },
        registry_username := none, registry_password := none, ecr := .requestFail,
        pushResult := .ok (), rmResult := .ok () }).1 = .err .reportError :=
  report_failure_escalates _ { name := "w", tags := ["latest"] } .reportError
    rfl rfl rfl rfl

/-- A failing resolution names an unresolvable reference of the input
list. -/
theorem resolveRefs_error_names_ref (f : String → Bool) (refs : List String) (e : ExpError)
    (h : resolveRefs f refs = .error e) :
    ∃ r, e = .resolutionError r ∧ r ∈ refs ∧ f r = false := by
  induction refs with
  | nil => simp [resolveRefs] at h
  | cons r rs ih =>
    simp only [resolveRefs] at h
    by_cases hr : f r = true
    · rw [if_pos hr] at h
      cases hres : resolveRefs f rs with
      | ok rest => rw [hres] at h; simp at h
      | error e2 =>
        rw [hres] at h
        simp only [Except.error.injEq] at h
        subst h
        obtain ⟨r2, he, hm, hf⟩ := ih hres
        exact ⟨r2, he, List.mem_cons_of_mem r hm, hf⟩
    · rw [if_neg hr] at h
      simp only [Except.error.injEq] at h
      exact ⟨r, h.symm, List.mem_cons_self r rs, by simpa using hr⟩

/-- Resolution succeeds only when every reference resolves, and then
returns the full list: it is all-or-nothing. -/
theorem resolveRefs_ok_all (f : String → Bool) (refs l : List String)
    (h : resolveRefs f refs = .ok l) :
    l = refs ∧ ∀ r ∈ refs, f r = true := by
  induction refs generalizing l with
  | nil =>
    simp only [resolveRefs, Except.ok.injEq] at h
    exact ⟨h.symm, by simp⟩
  | cons r rs ih =>
    simp only [resolveRefs] at h
    by_cases hr : f r = true
    · rw [if_pos hr] at h
      cases hres : resolveRefs f rs with
      | ok rest =>
        rw [hres] at h
        simp only [Except.ok.injEq] at h
        obtain ⟨hrest, hall⟩ := ih rest hres
        subst hrest
        constructor
        · rw [← h]
        · intro x hx
          rcases List.mem_cons.mp hx with rfl | hx2
          · exact hr
          · exact hall x hx2
      | error e2 => rw [hres] at h; simp at h
    · rw [if_neg hr] at h
      simp at h

/-- C7: if any component reference is unresolvable, resolution is
all-or-nothing - it never returns a partially resolved spec - and the
export fails with a `ResolutionError` naming an offending reference,
with the pipeline stopping before the build root is created: the trace
contains neither a workspace-creation nor a destroy event. -/
theorem resolution_failure_stops_pipeline (f : String → Bool) (refs : List String)
    (w : ExportWorld) (e : ExpError) (h : resolveRefs f refs = .error e) :
    (∃ r, e = .resolutionError r ∧ r ∈ refs ∧ f r = false) ∧
    (exportPipeline { w with resolveResult := .error e }).1 = .error e ∧
    Event.createBuildRoot ∉ (exportPipeline { w with resolveResult := .error e }).2 ∧
    Event.destroy ∉ (exportPipeline { w with resolveResult := .error e }).2 ∧
    (∀ g : String → Bool, ∀ rs l : List String,
      resolveRefs g rs = .ok l → l = rs ∧ ∀ r ∈ rs, g r = true) := by
  refine ⟨resolveRefs_error_names_ref f refs e h, ?_, ?_, ?_,
    fun g rs l hok => resolveRefs_ok_all g rs l hok⟩
  · simp [exportPipeline]
  · simp [exportPipeline]
  · simp [exportPipeline]

/-- C7 witness: the theorem applied to the spec's scenario C, the single
unresolvable reference `"doesnotexist/pkg"`. -/
theorem resolution_failure_stops_pipeline_witness :
    (∃ r, (ExpError.resolutionError "doesnotexist/pkg") = .resolutionError r ∧
      r ∈ ["doesnotexist/pkg"] ∧ (fun s => s != "doesnotexist/pkg") r = false) ∧
    (exportPipeline
      { resolveResult := .error (.resolutionError "doesnotexist/pkg"),
        assembleResult := .ok (), dockerFilesResult := .ok (),
        buildExportResult := .ok { name := "w", tags := ["latest"] },
        destroyResult := .ok () }).1 = .error (.resolutionError "doesnotexist/pkg") ∧
    Event.createBuildRoot ∉ (exportPipeline
      { resolveResult := .error (.resolutionError "doesnotexist/pkg"),
        assembleResult := .ok (), dockerFilesResult := .ok (),
        buildExportResult := .ok { name := "w", tags := ["latest"] },
        destroyResult := .ok () }).2 ∧
    Event.destroy ∉ (exportPipeline
      { resolveResult := .error (.resolutionError "doesnotexist/pkg"),
        assembleResult := .ok (), dockerFilesResult := .ok (),
        buildExportResult := .ok { name := "w", tags := ["latest"] },
        destroyResult := .ok () }).2 ∧
    (∀ g : String → Bool, ∀ rs l : List String,
      resolveRefs g rs = .ok l → l = rs ∧ ∀ r ∈ rs, g r = true) :=
  resolution_failure_stops_pipeline (fun s => s != "doesnotexist/pkg")
    ["doesnotexist/pkg"]
    { resolveResult := .error (.resolutionError "doesnotexist/pkg"),
      assembleResult := .ok (), dockerFilesResult := .ok (),
      buildExportResult := .ok { name := "w", tags := ["latest"] },
      destroyResult := .ok () }
    (.resolutionError "doesnotexist/pkg") (by decide)

/-- The de-duplicated list is a sublist of the input, so the input's
order (the policy's precedence order) is preserved. -/
theorem dedupKeepFirstAux_sublist (seen l : List String) :
    List.Sublist (dedupKeepFirstAux seen l) l := by
  induction l generalizing seen with
  | nil => simp [dedupKeepFirstAux]
  | cons x xs ih =>
    simp only [dedupKeepFirstAux]
    split
    · exact (ih seen).cons x
    · exact (ih (x :: seen)).cons₂ x

/-- Membership in the de-duplicated list: exactly the input elements not
already seen. -/
theorem dedupKeepFirstAux_mem (seen l : List String) (a : String) :
    a ∈ dedupKeepFirstAux seen l ↔ a ∈ l ∧ a ∉ seen := by
  induction l generalizing seen with
  | nil => simp [dedupKeepFirstAux]
  | cons x xs ih =>
    simp only [dedupKeepFirstAux]
    split
    case isTrue hx =>
      rw [ih seen]
      constructor
      · rintro ⟨hm, hns⟩
        exact ⟨List.mem_cons_of_mem x hm, hns⟩
      · rintro ⟨hm, hns⟩
        rcases List.mem_cons.mp hm with rfl | hm2
        · exact absurd hx hns
        · exact ⟨hm2, hns⟩
    case isFalse hx =>
      simp only [List.mem_cons, ih (x :: seen)]
      constructor
      · rintro (rfl | ⟨hm, hns⟩)
        · exact ⟨Or.inl rfl, hx⟩
        · exact ⟨Or.inr hm, fun hs => hns (Or.inr hs)⟩
      · rintro ⟨rfl | hm, hns⟩
        · exact Or.inl rfl
        · by_cases hax : a = x
          · exact Or.inl hax
          · exact Or.inr ⟨hm, fun hd => hd.elim hax hns⟩

/-- The de-duplicated list has no duplicates. -/
theorem dedupKeepFirstAux_nodup (seen l : List String) :
    (dedupKeepFirstAux seen l).Nodup := by
  induction l generalizing seen with
  | nil => simp [dedupKeepFirstAux]
  | cons x xs ih =>
    simp only [dedupKeepFirstAux]
    split
    · exact ih seen
    · refine List.nodup_cons.mpr ⟨?_, ih (x :: seen)⟩
      intro hmem
      have h2 := (dedupKeepFirstAux_mem (x :: seen) xs x).mp hmem
      exact h2.2 (List.mem_cons_self x seen)

/-- C8: for every naming policy and resolved identifier, the computed
tag list has no duplicates, is never empty, is a sublist of the raw
candidates - so it keeps the precedence order custom tag first, then
version+release, then version, then latest - whenever any candidate
exists, and falls back to the default tag when no policy flag is set
and no custom tag is given. -/
theorem tag_list_sound (n : Naming) (version release : String) :
    (n.tagList version release).Nodup ∧
    n.tagList version release ≠ [] ∧
    (rawTags n version release ≠ [] →
      List.Sublist (n.tagList version release) (rawTags n version release)) ∧
    (rawTags n version release = [] → n.tagList version release = ["latest"]) := by
  have hsub : List.Sublist (dedupKeepFirst (rawTags n version release))
      (rawTags n version release) :=
    dedupKeepFirstAux_sublist [] (rawTags n version release)
  have hnd : (dedupKeepFirst (rawTags n version release)).Nodup :=
    dedupKeepFirstAux_nodup [] (rawTags n version release)
  have hmem : ∀ a, a ∈ dedupKeepFirst (rawTags n version release) ↔
      a ∈ rawTags n version release := by
    intro a
    rw [dedupKeepFirst, dedupKeepFirstAux_mem]
    simp
  by_cases hraw : rawTags n version release = []
  · have hd : dedupKeepFirst (rawTags n version release) = [] := by
      rw [dedupKeepFirst, hraw]
      rfl
    refine ⟨?_, ?_, fun hne => absurd hraw hne, fun _ => ?_⟩ <;>
      simp [Naming.tagList, hd]
  · have hd : dedupKeepFirst (rawTags n version release) ≠ [] := by
      obtain ⟨a, ha⟩ := List.exists_mem_of_ne_nil _ hraw
      intro hnil
      rw [← hmem a, hnil] at ha
      exact List.not_mem_nil a ha
    have ht : n.tagList version release = dedupKeepFirst (rawTags n version release) := by
      simp [Naming.tagList, List.isEmpty_iff, hd]
    refine ⟨?_, ?_, fun _ => ?_, fun habs => absurd habs hraw⟩ <;> rw [ht]
    · exact hnd
    · exact hd
    · exact hsub

/-- C8 witness: the theorem at the spec's scenario A policy (latest and
version tags enabled, no custom tag), with the precedence-order sublist
hypothesis discharged concretely. -/
theorem tag_list_sound_witness :
    (Naming.tagList
      { custom_image_name := none, latest_tag := true, version_tag := true,
        version_release_tag := false, custom_tag := none, registry_url := none,
        registry_type := .docker } "1.2.0" "20200101000000").Nodup ∧
    List.Sublist
      (Naming.tagList
        { custom_image_name := none, latest_tag := true, version_tag := true,
          version_release_tag := false, custom_tag := none, registry_url := none,
          registry_type := .docker } "1.2.0" "20200101000000")
      (rawTags
        { custom_image_name := none, latest_tag := true, version_tag := true,
          version_release_tag := false, custom_tag := none, registry_url := none,
          registry_type := .docker } "1.2.0" "20200101000000") :=
  ⟨(tag_list_sound
      { custom_image_name := none, latest_tag := true, version_tag := true,
        version_release_tag := false, custom_tag := none, registry_url := none,
        registry_type := .docker } "1.2.0" "20200101000000").1,
   (tag_list_sound
      { custom_image_name := none, latest_tag := true, version_tag := true,
        version_release_tag := false, custom_tag := none, registry_url := none,
        registry_type := .docker } "1.2.0" "20200101000000").2.2.1 (by decide)⟩

/-- An early exit of the push block is a panic or an error, never a
success value. -/
theorem pushPhase_some_not_ok (w : CliWorld) (out : Outcome (Option ContainerImage))
    (s : List Event) (h : pushPhase w = (some out, s)) :
    out = .panicked ∨ ∃ e, out = .err e := by
  rw [pushPhase] at h
  cases hpi : w.push_image <;> rw [hpi] at h
  · simp at h
  · simp only [if_true] at h
    cases hu : w.registry_username with
    | none =>
      rw [hu] at h
      simp only [Prod.mk.injEq, Option.some.injEq] at h
      exact Or.inl h.1.symm
    | some username =>
      rw [hu] at h
      simp only at h
      cases hp : w.registry_password with
      | none =>
        rw [hp] at h
        simp only [Prod.mk.injEq, Option.some.injEq] at h
        exact Or.inl h.1.symm
      | some password =>
        rw [hp] at h
        simp only at h
        cases hc : Credentials.new w.naming.registry_type username password w.ecr with
        | ok c =>
          rw [hc] at h
          simp only at h
          cases hpr : w.pushResult with
          | error e =>
            rw [hpr] at h
            simp only [Prod.mk.injEq, Option.some.injEq] at h
            exact Or.inr ⟨e, h.1.symm⟩
          | ok u =>
            rw [hpr] at h
            simp at h
        | err e =>
          rw [hc] at h
          simp only [Prod.mk.injEq, Option.some.injEq] at h
          exact Or.inr ⟨e, h.1.symm⟩
        | panicked =>
          rw [hc] at h
          simp only [Prod.mk.injEq, Option.some.injEq] at h
          exact Or.inl h.1.symm

/-- If the push block's trace contains a credential-resolution event,
the `PUSH_IMAGE` flag was set and the trace starts with that event. -/
theorem pushPhase_creds (w : CliWorld) (r : Option (Outcome (Option ContainerImage)))
    (s : List Event) (h : pushPhase w = (r, s))
    (hmem : Event.resolveCredentials ∈ s) :
    w.push_image = true ∧
    (s = [Event.resolveCredentials] ∨ s = [Event.resolveCredentials, Event.pushOp]) := by
  rw [pushPhase] at h
  cases hpi : w.push_image <;> rw [hpi] at h
  · simp only [Bool.false_eq_true, if_false] at h
    obtain ⟨h1, h2⟩ := Prod.mk.injEq .. ▸ h
    subst h2
    simp at hmem
  · simp only [if_true] at h
    refine ⟨rfl, ?_⟩
    cases hu : w.registry_username with
    | none =>
      rw [hu] at h
      obtain ⟨h1, h2⟩ := Prod.mk.injEq .. ▸ h
      subst h2
      simp at hmem
    | some username =>
      rw [hu] at h
      simp only at h
      cases hp : w.registry_password with
      | none =>
        rw [hp] at h
        obtain ⟨h1, h2⟩ := Prod.mk.injEq .. ▸ h
        subst h2
        simp at hmem
      | some password =>
        rw [hp] at h
        simp only at h
        cases hc : Credentials.new w.naming.registry_type username password w.ecr with
        | ok c =>
          rw [hc] at h
          simp only at h
          cases hpr : w.pushResult with
          | error e =>
            rw [hpr] at h
            obtain ⟨h1, h2⟩ := Prod.mk.injEq .. ▸ h
            subst h2
            exact Or.inr rfl
          | ok u =>
            rw [hpr] at h
            obtain ⟨h1, h2⟩ := Prod.mk.injEq .. ▸ h
            subst h2
            exact Or.inr rfl
        | err e =>
          rw [hc] at h
          obtain ⟨h1, h2⟩ := Prod.mk.injEq .. ▸ h
          subst h2
          exact Or.inl rfl
        | panicked =>
          rw [hc] at h
          obtain ⟨h1, h2⟩ := Prod.mk.injEq .. ▸ h
          subst h2
          exact Or.inl rfl

/-- C6: credential resolution happens only on the transition into
publishing. When the `PUSH_IMAGE` flag is absent no credential
resolution is performed at all; and whenever a credential-resolution
event occurs, the flag was present, the report and current-directory
steps had succeeded, the inner `export` had already produced an image,
and the event sits immediately after the report event in the trace, so
after the whole local build. -/
theorem credentials_only_for_push (w : CliWorld) :
    (w.push_image = false →
      Event.resolveCredentials ∉ (export_for_cli_matches w).2) ∧
    (Event.resolveCredentials ∈ (export_for_cli_matches w).2 →
      w.push_image = true ∧ w.reportResult = .ok () ∧ w.currentDirResult = .ok () ∧
      (∃ image, (exportPipeline w.exportWorld).1 = .ok image) ∧
      ∃ rest, (export_for_cli_matches w).2 =
        (exportPipeline w.exportWorld).2 ++
          Event.report :: Event.resolveCredentials :: rest) := by
  have hne := (exportPipeline_events w.exportWorld).1
  cases hspec : w.specResult with
  | error e => simp [export_for_cli_matches, hspec]
  | ok u =>
    cases u
    rcases hE : exportPipeline w.exportWorld with ⟨res, tr⟩
    rw [hE] at hne
    simp only at hne
    cases res with
    | error e =>
      have htr : (export_for_cli_matches w).2 = tr := by
        simp [export_for_cli_matches, hspec, hE]
      rw [htr]
      exact ⟨fun _ => hne, fun hmem => absurd hmem hne⟩
    | ok image =>
      cases hcd : w.currentDirResult with
      | error e2 =>
        have htr : (export_for_cli_matches w).2 = tr := by
          simp [export_for_cli_matches, hspec, hE, hcd]
        rw [htr]
        exact ⟨fun _ => hne, fun hmem => absurd hmem hne⟩
      | ok u2 =>
        cases u2
        cases hrep : w.reportResult with
        | error e3 =>
          have htr : (export_for_cli_matches w).2 = tr ++ [Event.report] := by
            simp [export_for_cli_matches, hspec, hE, hcd, hrep]
          have hne2 : Event.resolveCredentials ∉ tr ++ [Event.report] := by
            simp [List.mem_append, hne]
          rw [htr]
          exact ⟨fun _ => hne2, fun hmem => absurd hmem hne2⟩
        | ok u3 =>
          cases u3
          rcases hpp : pushPhase w with ⟨oe, s⟩
          cases oe with
          | some out =>
            have htr : (export_for_cli_matches w).2 = tr ++ Event.report :: s := by
              simp [export_for_cli_matches, hspec, hE, hcd, hrep, hpp]
            rw [htr]
            constructor
            · intro hpf
              have hz := pushPhase_no_push w hpf
              rw [hpp] at hz
              simp at hz
            · intro hmem
              have hs : Event.resolveCredentials ∈ s := by
                rcases List.mem_append.mp hmem with h1 | h1
                · exact absurd h1 hne
                · rcases List.mem_cons.mp h1 with h2 | h2
                  · cases h2
                  · exact h2
              obtain ⟨hpi, hcases⟩ := pushPhase_creds w (some out) s hpp hs
              refine ⟨hpi, rfl, rfl, ⟨image, rfl⟩, ?_⟩
              rcases hcases with rfl | rfl
              · exact ⟨[], rfl⟩
              · exact ⟨[Event.pushOp], rfl⟩
          | none =>
            rcases hrm : rmPhase w image with ⟨out2, s2⟩
            have htr : (export_for_cli_matches w).2 =
                tr ++ Event.report :: (s ++ s2) := by
              simp [export_for_cli_matches, hspec, hE, hcd, hrep, hpp, hrm]
            have hs2 : Event.resolveCredentials ∉ s2 := by
              have h4 := rmPhase_trace w image
              rw [hrm] at h4
              simp only at h4
              rcases h4 with rfl | rfl <;> simp
            rw [htr]
            constructor
            · intro hpf
              have hz := pushPhase_no_push w hpf
              rw [hpp] at hz
              obtain ⟨h1, h2⟩ := Prod.mk.injEq .. ▸ hz
              subst h2
              simp [List.mem_append, hne, hs2]
            · intro hmem
              have hs : Event.resolveCredentials ∈ s := by
                rcases List.mem_append.mp hmem with h1 | h1
                · exact absurd h1 hne
                · rcases List.mem_cons.mp h1 with h2 | h2
                  · cases h2
                  · rcases List.mem_append.mp h2 with h3 | h3
                    · exact h3
                    · exact absurd h3 hs2
              obtain ⟨hpi, hcases⟩ := pushPhase_creds w none s hpp hs
              refine ⟨hpi, rfl, rfl, ⟨image, rfl⟩, ?_⟩
              rcases hcases with rfl | rfl
              · exact ⟨s2, rfl⟩
              · exact ⟨Event.pushOp :: s2, rfl⟩

/-- C6 witness: the spec's scenario A - no push requested - performs no
credential resolution. -/
theorem credentials_only_for_push_witness :
    Event.resolveCredentials ∉
      (export_for_cli_matches
        { specResult := .ok (),
          exportWorld :=
            { resolveResult := .ok (), assembleResult := .ok (),
              dockerFilesResult := .ok (),
              buildExportResult := .ok { name := "acme/web", tags := ["latest", "1.2.0"] },
              destroyResult := .ok () },
          currentDirResult := .ok (), reportResult := .ok (),
          push_image := false, rm_image := false,
          naming := { custom_image_name := none, latest_tag := true, version_tag := true,
                      version_release_tag := false, custom_tag := none, registry_url := none,
                      registry_type := .docker },
          registry_username := none, registry_password := none, ecr := .requestFail,
          pushResult := .ok (), rmResult := .ok () }).2 :=
  (credentials_only_for_push
    { specResult := .ok (),
      exportWorld :=
        { resolveResult := .ok (), assembleResult := .ok (),
          dockerFilesResult := .ok (),
          buildExportResult := .ok { name := "acme/web", tags := ["latest", "1.2.0"] },
          destroyResult := .ok () },
      currentDirResult := .ok (), reportResult := .ok (),
      push_image := false, rm_image := false,
      naming := { custom_image_name := none, latest_tag := true, version_tag := true,
                  version_release_tag := false, custom_tag := none, registry_url := none,
                  registry_type := .docker },
      registry_username := none, registry_password := none, ecr := .requestFail,
      pushResult := .ok (), rmResult := .ok () }).1 rfl

/-- C10: when `export_for_cli_matches` succeeds, it returns `none`
exactly when `RM_IMAGE` was requested - and then the removal operation
ran, witnessed by its trace event - and otherwise returns `some` of the
image built by `export`. -/
theorem rm_image_result (w : CliWorld) (o : Option ContainerImage)
    (h : (export_for_cli_matches w).1 = .ok o) :
    (o = none ↔ w.rm_image = true) ∧
    (w.rm_image = true → Event.rmImage ∈ (export_for_cli_matches w).2) ∧
    (w.rm_image = false →
      ∃ image, (exportPipeline w.exportWorld).1 = .ok image ∧ o = some image) := by
  cases hspec : w.specResult with
  | error e =>
    have hres : (export_for_cli_matches w).1 = .err e := by
      simp [export_for_cli_matches, hspec]
    rw [hres] at h
    cases h
  | ok u =>
    cases u
    rcases hE : exportPipeline w.exportWorld with ⟨res, tr⟩
    cases res with
    | error e =>
      have hres : (export_for_cli_matches w).1 = .err e := by
        simp [export_for_cli_matches, hspec, hE]
      rw [hres] at h
      cases h
    | ok image =>
      cases hcd : w.currentDirResult with
      | error e2 =>
        have hres : (export_for_cli_matches w).1 = .err e2 := by
          simp [export_for_cli_matches, hspec, hE, hcd]
        rw [hres] at h
        cases h
      | ok u2 =>
        cases u2
        cases hrep : w.reportResult with
        | error e3 =>
          have hres : (export_for_cli_matches w).1 = .err e3 := by
            simp [export_for_cli_matches, hspec, hE, hcd, hrep]
          rw [hres] at h
          cases h
        | ok u3 =>
          cases u3
          rcases hpp : pushPhase w with ⟨oe, s⟩
          cases oe with
          | some out =>
            have hres : (export_for_cli_matches w).1 = out := by
              simp [export_for_cli_matches, hspec, hE, hcd, hrep, hpp]
            rw [hres] at h
            rcases pushPhase_some_not_ok w out s hpp with rfl | ⟨e4, rfl⟩
            · cases h
            · cases h
          | none =>
            rcases hrm : rmPhase w image with ⟨out2, s2⟩
            have hres : (export_for_cli_matches w).1 = out2 := by
              simp [export_for_cli_matches, hspec, hE, hcd, hrep, hpp, hrm]
            have htr : (export_for_cli_matches w).2 =
                tr ++ Event.report :: (s ++ s2) := by
              simp [export_for_cli_matches, hspec, hE, hcd, hrep, hpp, hrm]
            rw [hres] at h
            rw [rmPhase] at hrm
            cases hri : w.rm_image <;> rw [hri] at hrm
            · simp only [Bool.false_eq_true, if_false] at hrm
              obtain ⟨h1, h2⟩ := Prod.mk.injEq .. ▸ hrm
              rw [← h1] at h
              injection h with h3
              refine ⟨?_, ?_, fun _ => ⟨image, rfl, h3.symm⟩⟩
              · rw [← h3]
                simp [hri]
              · intro hr
                cases hr
            · simp only [if_true] at hrm
              cases hrr : w.rmResult with
              | error e5 =>
                rw [hrr] at hrm
                obtain ⟨h1, h2⟩ := Prod.mk.injEq .. ▸ hrm
                rw [← h1] at h
                cases h
              | ok u4 =>
                rw [hrr] at hrm
                obtain ⟨h1, h2⟩ := Prod.mk.injEq .. ▸ hrm
                rw [← h1] at h
                injection h with h3
                refine ⟨?_, fun _ => ?_, ?_⟩
                · rw [← h3]
                  simp [hri]
                · rw [htr, ← h2]
                  simp
                · intro hr
                  cases hr

/-- C10 witness: a run with `RM_IMAGE` requested succeeds with `none`
and its trace contains the removal event. -/
theorem rm_image_result_witness :
    Event.rmImage ∈
      (export_for_cli_matches
        { specResult := .ok (),
          exportWorld :=
            { resolveResult := .ok (), assembleResult := .ok (),
              dockerFilesResult := .ok (),
              buildExportResult := .ok { name := "acme/web", tags := ["latest"] },
              destroyResult := .ok () },
          currentDirResult := .ok (), reportResult := .ok (),
          push_image := false, rm_image := true,
          naming := { custom_image_name := none, latest_tag := true, version_tag := false,
                      version_release_tag := false, custom_tag := none, registry_url := none,
                      registry_type := .docker },
          registry_username := none, registry_password := none, ecr := .requestFail,
          pushResult := .ok (), rmResult := .ok () }).2 :=
  ((rm_image_result
    { specResult := .ok (),
      exportWorld :=
        { resolveResult := .ok (), assembleResult := .ok (),
          dockerFilesResult := .ok (),
          buildExportResult := .ok { name := "acme/web", tags := ["latest"] },
          destroyResult := .ok () },
      currentDirResult := .ok (), reportResult := .ok (),
      push_image := false, rm_image := true,
      naming := { custom_image_name := none, latest_tag := true, version_tag := false,
                  version_release_tag := false, custom_tag := none, registry_url := none,
                  registry_type := .docker },
      registry_username := none, registry_password := none, ecr := .requestFail,
      pushResult := .ok (), rmResult := .ok () } none rfl).2.1) rfl
